import Mathlib

/-!
Verification of the core of the ESL execution engine: the NaN-boxing value
encoding (valueHelpersInline.cpp), the mark-and-sweep garbage collector
(garbageCollector.cpp), the bytecode compiler's switch and class lowering
(compiler.cpp), and the virtual machine's dispatch cases (thread.cpp).
All 64-bit machine quantities are modelled as Nat with explicit reductions
modulo 2 ^ 64; pointers are Nat payloads below 2 ^ 48.
-/

set_option maxHeartbeats 1600000

/-! ## Bit-level helper lemmas -/

/-- Bits of a value split as a high part shifted by k plus a low part below 2 ^ k. -/
theorem testBit_hi_lo (k h l : Nat) (hl : l < 2 ^ k) (i : Nat) :
    (2 ^ k * h + l).testBit i = if i < k then l.testBit i else h.testBit (i - k) := by
  rw [Nat.mul_add_lt_is_or hl, Nat.testBit_or, Nat.mul_comm, ← Nat.shiftLeft_eq,
    Nat.testBit_shiftLeft]
  by_cases hik : i < k
  · have hge : decide (i ≥ k) = false := by simp [Nat.not_le.mpr hik]
    simp [hik, hge]
  · have hli : l.testBit i = false :=
      Nat.testBit_lt_two_pow
        (lt_of_lt_of_le hl (Nat.pow_le_pow_right (by norm_num) (Nat.le_of_not_lt hik)))
    simp [hik, hli, Nat.le_of_not_lt hik]

/-- Bitwise AND distributes over the split of two values into aligned high and low parts. -/
theorem split_and (k hx lx hm lm : Nat) (h1 : lx < 2 ^ k) (h2 : lm < 2 ^ k) :
    (2 ^ k * hx + lx) &&& (2 ^ k * hm + lm) = 2 ^ k * (hx &&& hm) + (lx &&& lm) := by
  apply Nat.eq_of_testBit_eq
  intro i
  rw [Nat.testBit_and, testBit_hi_lo k hx lx h1 i, testBit_hi_lo k hm lm h2 i,
    testBit_hi_lo k (hx &&& hm) (lx &&& lm) (Nat.and_lt_two_pow lx h2) i]
  by_cases hik : i < k <;> simp [hik, Nat.testBit_and]

/-- Masking with an all-ones block is reduction modulo a power of two. -/
theorem and_two_pow_sub_one (x k : Nat) : x &&& (2 ^ k - 1) = x % 2 ^ k := by
  apply Nat.eq_of_testBit_eq
  intro i
  rw [Nat.testBit_and, Nat.testBit_mod_two_pow, Nat.testBit_two_pow_sub_one]
  exact Bool.and_comm _ _

/-- Masking with an aligned all-ones field extracts that field of the value. -/
theorem field_and (x s w : Nat) : x &&& 2 ^ s * (2 ^ w - 1) = 2 ^ s * (x / 2 ^ s % 2 ^ w) := by
  conv_lhs => rw [← Nat.div_add_mod x (2 ^ s), show 2 ^ s * (2 ^ w - 1) = 2 ^ s * (2 ^ w - 1) + 0 from rfl]
  rw [split_and s (x / 2 ^ s) (x % 2 ^ s) (2 ^ w - 1) 0
    (Nat.mod_lt _ (Nat.pos_pow_of_pos s (by norm_num))) (Nat.pos_pow_of_pos s (by norm_num))]
  rw [and_two_pow_sub_one]
  simp

/-! ## Value representation (valueHelpersInline.cpp)

A Value is a 64-bit pattern, modelled as a Nat below 2 ^ 64.  The masks are
the ones defined at the top of valueHelpersInline.cpp. -/

def MASK_SIGN : Nat := 0x8000000000000000
def MASK_EXPONENT : Nat := 0x7ff0000000000000
def MASK_QUIET : Nat := 0x0008000000000000
def MASK_TYPE : Nat := 0x0007000000000000
def MASK_SIGNATURE : Nat := 0xffff000000000000
def MASK_NAN : Nat := 0x7ff0000000000000
def MASK_PAYLOAD_INT : Nat := 0x00000000ffffffff
def MASK_PAYLOAD_OBJ : Nat := 0x0000ffffffffffff

def MASK_TYPE_FALSE : Nat := 0x0001000000000000
def MASK_TYPE_TRUE : Nat := 0x0002000000000000
def MASK_TYPE_NIL : Nat := 0x0003000000000000
def MASK_TYPE_INT : Nat := 0x0004000000000000

def MASK_SIGNATURE_NAN : Nat := MASK_NAN
def MASK_SIGNATURE_FALSE : Nat := MASK_NAN ||| MASK_TYPE_FALSE
def MASK_SIGNATURE_TRUE : Nat := MASK_NAN ||| MASK_TYPE_TRUE
def MASK_SIGNATURE_NIL : Nat := MASK_NAN ||| MASK_TYPE_NIL
def MASK_SIGNATURE_INT : Nat := MASK_NAN ||| MASK_TYPE_INT
def MASK_SIGNATURE_OBJ : Nat := MASK_SIGN ||| MASK_NAN ||| MASK_SIGN

/-- Value kinds of the tagged 64-bit immediate (enum ValueType). -/
inductive ValueType where
  | DOUBLE
  | BOOL
  | NIL
  | INT
  | OBJ
deriving DecidableEq, Repr

/-- Bitwise complement of a 64-bit word (operator ~ on uint64_t). -/
def xnot64 (x : Nat) : Nat := 2 ^ 64 - 1 - x

/-- Kind dispatch of getType in valueHelpersInline.cpp: a pattern whose exponent
field is not all ones is a double, otherwise the 16 signature bits select the kind,
with NIL as the fall-through of the switch. -/
def getType (x : Nat) : ValueType :=
  if xnot64 x &&& MASK_EXPONENT ≠ 0 then ValueType.DOUBLE
  else if x &&& MASK_SIGNATURE = MASK_SIGNATURE_NAN then ValueType.DOUBLE
  else if x &&& MASK_SIGNATURE = MASK_SIGNATURE_FALSE then ValueType.BOOL
  else if x &&& MASK_SIGNATURE = MASK_SIGNATURE_TRUE then ValueType.BOOL
  else if x &&& MASK_SIGNATURE = MASK_SIGNATURE_INT then ValueType.INT
  else if x &&& MASK_SIGNATURE = MASK_SIGNATURE_OBJ then ValueType.OBJ
  else ValueType.NIL

/-- Payload of the C cast (uint32_t) applied to a 32-bit signed integer. -/
def intPayload (n : Int) : Nat := (n % (2 ^ 32 : Int)).toNat

def encodeDouble (bits : Nat) : Nat := bits
def encodeInt (n : Int) : Nat := MASK_SIGNATURE_INT ||| intPayload n
def encodeBool (b : Bool) : Nat := if b then MASK_SIGNATURE_TRUE else MASK_SIGNATURE_FALSE
def encodeObj (p : Nat) : Nat := MASK_SIGNATURE_OBJ ||| p
def encodeNil : Nat := MASK_SIGNATURE_NIL

def decodeDouble (x : Nat) : Nat := x

/-- Interpretation of a 32-bit payload as a signed integer (the int32_t narrowing). -/
def int32OfNat (m : Nat) : Int := if m < 2 ^ 31 then (m : Int) else (m : Int) - 2 ^ 32

def decodeInt (x : Nat) : Int := int32OfNat (x &&& MASK_PAYLOAD_INT)
def decodeBool (x : Nat) : Bool := x &&& MASK_TYPE_TRUE ≠ 0
def decodeObj (x : Nat) : Nat := x &&& MASK_PAYLOAD_OBJ

/-- Exponent field (bits 52..62) of an IEEE-754 double bit pattern. -/
def expField (b : Nat) : Nat := b / 2 ^ 52 % 2 ^ 11

/-- Mantissa field (bits 0..51) of an IEEE-754 double bit pattern. -/
def mantissaField (b : Nat) : Nat := b % 2 ^ 52

/-- NaN bit patterns: exponent all ones with a nonzero mantissa. -/
def isNanBits (b : Nat) : Bool := expField b = 2 ^ 11 - 1 ∧ mantissaField b ≠ 0

/-- Infinity bit patterns: exponent all ones with a zero mantissa. -/
def isInfBits (b : Nat) : Bool := expField b = 2 ^ 11 - 1 ∧ mantissaField b = 0

/-! Evaluation lemmas for getType on encoded values. -/

theorem encodeInt_eq_add (n : Int) : encodeInt n = 2 ^ 48 * 0x7ff4 + intPayload n := by
  have hm : intPayload n < 2 ^ 32 := by
    unfold intPayload
    omega
  have h48 : intPayload n < 2 ^ 48 := lt_of_lt_of_le hm (by norm_num)
  rw [encodeInt, show MASK_SIGNATURE_INT = 2 ^ 48 * 0x7ff4 by decide,
    ← Nat.mul_add_lt_is_or h48]

theorem intPayload_lt (n : Int) : intPayload n < 2 ^ 32 := by
  unfold intPayload
  omega

/-- Signature extraction for values built as high 16 bits over a 48-bit payload. -/
theorem sig_of_hi_lo (h l : Nat) (hl : l < 2 ^ 48) (hh : h < 2 ^ 16) :
    (2 ^ 48 * h + l) &&& MASK_SIGNATURE = 2 ^ 48 * h := by
  rw [show MASK_SIGNATURE = 2 ^ 48 * 0xffff + 0 from by decide,
    split_and 48 h l 0xffff 0 hl (by norm_num),
    show (0xffff : Nat) = 2 ^ 16 - 1 from by norm_num,
    and_two_pow_sub_one, Nat.mod_eq_of_lt hh]
  simp

/-- Exponent test of getType for values built as high 16 bits over a 48-bit payload. -/
theorem exp_of_hi_lo (h l : Nat) (hl : l < 2 ^ 48) (hh : h < 2 ^ 16) :
    xnot64 (2 ^ 48 * h + l) &&& MASK_EXPONENT = 2 ^ 48 * ((0xffff - h) &&& 0x7ff0) := by
  have step : xnot64 (2 ^ 48 * h + l) = 2 ^ 48 * (0xffff - h) + (2 ^ 48 - 1 - l) := by
    unfold xnot64
    omega
  rw [step, show MASK_EXPONENT = 2 ^ 48 * 0x7ff0 + 0 from by decide,
    split_and 48 (0xffff - h) (2 ^ 48 - 1 - l) 0x7ff0 0 (by omega) (by norm_num)]
  simp

theorem getType_encodeInt (n : Int) : getType (encodeInt n) = ValueType.INT := by
  have hl : intPayload n < 2 ^ 48 := lt_of_lt_of_le (intPayload_lt n) (by norm_num)
  rw [encodeInt_eq_add]
  unfold getType
  rw [exp_of_hi_lo 0x7ff4 _ hl (by norm_num), sig_of_hi_lo 0x7ff4 _ hl (by norm_num)]
  decide

theorem decodeInt_encodeInt (n : Int) (h1 : -(2 ^ 31) ≤ n) (h2 : n < 2 ^ 31) :
    decodeInt (encodeInt n) = n := by
  have hm : intPayload n < 2 ^ 32 := intPayload_lt n
  rw [encodeInt_eq_add, decodeInt,
    show (2 ^ 48 * 0x7ff4 : Nat) = 2 ^ 32 * 0x7ff40000 from by norm_num,
    show MASK_PAYLOAD_INT = 2 ^ 32 * 0 + (2 ^ 32 - 1) from by decide,
    split_and 32 0x7ff40000 (intPayload n) 0 (2 ^ 32 - 1) hm (by norm_num),
    and_two_pow_sub_one, Nat.mod_eq_of_lt hm]
  unfold intPayload int32OfNat
  simp only [Nat.and_zero, Nat.mul_zero, Nat.zero_add]
  omega

theorem getType_encodeObj (p : Nat) (hp : p < 2 ^ 48) :
    getType (encodeObj p) = ValueType.OBJ := by
  have he : encodeObj p = 2 ^ 48 * 0xfff0 + p := by
    rw [encodeObj, show MASK_SIGNATURE_OBJ = 2 ^ 48 * 0xfff0 from by decide,
      ← Nat.mul_add_lt_is_or hp]
  rw [he]
  unfold getType
  rw [exp_of_hi_lo 0xfff0 _ hp (by norm_num), sig_of_hi_lo 0xfff0 _ hp (by norm_num)]
  decide

theorem decodeObj_encodeObj (p : Nat) (hp : p < 2 ^ 48) : decodeObj (encodeObj p) = p := by
  have he : encodeObj p = 2 ^ 48 * 0xfff0 + p := by
    rw [encodeObj, show MASK_SIGNATURE_OBJ = 2 ^ 48 * 0xfff0 from by decide,
      ← Nat.mul_add_lt_is_or hp]
  rw [he, decodeObj, show MASK_PAYLOAD_OBJ = 2 ^ 48 * 0 + (2 ^ 48 - 1) from by decide,
    split_and 48 0xfff0 p 0 (2 ^ 48 - 1) hp (by norm_num),
    and_two_pow_sub_one, Nat.mod_eq_of_lt hp]
  simp

/-- Complement of the exponent field under the 64-bit bitwise NOT. -/
theorem expField_xnot (x : Nat) (hx : x < 2 ^ 64) :
    expField (xnot64 x) = 2 ^ 11 - 1 - expField x := by
  unfold expField xnot64
  omega

theorem getType_double_of_exp (b : Nat) (hb : b < 2 ^ 64) (h : expField b ≠ 2 ^ 11 - 1) :
    getType (encodeDouble b) = ValueType.DOUBLE := by
  have hmask : xnot64 b &&& MASK_EXPONENT = 2 ^ 52 * expField (xnot64 b) := by
    rw [show MASK_EXPONENT = 2 ^ 52 * (2 ^ 11 - 1) from by decide, field_and]
    rfl
  have hne : xnot64 b &&& MASK_EXPONENT ≠ 0 := by
    rw [hmask, expField_xnot b hb]
    have : 2 ^ 11 - 1 - expField b ≠ 0 := by
      unfold expField at h ⊢
      omega
    positivity
  unfold getType encodeDouble
  simp [hne]

theorem getType_double_of_nan_sig (l : Nat) (hl : l < 2 ^ 48) :
    getType (encodeDouble (2 ^ 48 * 0x7ff0 + l)) = ValueType.DOUBLE := by
  unfold encodeDouble
  unfold getType
  rw [exp_of_hi_lo 0x7ff0 _ hl (by norm_num), sig_of_hi_lo 0x7ff0 _ hl (by norm_num)]
  decide

/-- C5 (amended): decode after encode is the identity for every kind, and getType
recovers the kind, for the full signed 32-bit integer range, both booleans, nil,
48-bit object pointers, and every double bit pattern whose exponent field is not
all ones or whose top 16 bits are exactly 0x7ff0; double bit patterns round-trip
bit-exactly through encodeDouble/decodeDouble.  (The canonical quiet NaN is
preserved by the decode/encode round-trip but is typed NIL by getType, see the
counterexample.) -/
theorem valueEncodingRoundTrip (n : Int) (p b l : Nat) (bo : Bool)
    (hn1 : -(2 ^ 31) ≤ n) (hn2 : n < 2 ^ 31) (hp : p < 2 ^ 48) (hb : b < 2 ^ 64)
    (hl : l < 2 ^ 48) :
    (decodeInt (encodeInt n) = n ∧ getType (encodeInt n) = ValueType.INT) ∧
    (decodeBool (encodeBool bo) = bo ∧ getType (encodeBool bo) = ValueType.BOOL) ∧
    getType encodeNil = ValueType.NIL ∧
    (decodeObj (encodeObj p) = p ∧ getType (encodeObj p) = ValueType.OBJ) ∧
    decodeDouble (encodeDouble b) = b ∧
    (expField b ≠ 2 ^ 11 - 1 → getType (encodeDouble b) = ValueType.DOUBLE) ∧
    getType (encodeDouble (2 ^ 48 * 0x7ff0 + l)) = ValueType.DOUBLE := by
  refine ⟨⟨decodeInt_encodeInt n hn1 hn2, getType_encodeInt n⟩, ?_, ?_,
    ⟨decodeObj_encodeObj p hp, getType_encodeObj p hp⟩, rfl,
    getType_double_of_exp b hb, getType_double_of_nan_sig l hl⟩
  · cases bo <;> exact ⟨by decide, by decide⟩
  · decide

/-- C5 counterexample: the canonical quiet NaN bit pattern 0x7ff8000000000000 is a
NaN double, yet getType classifies it as NIL rather than DOUBLE, so the claim that
getType recovers the kind of every encoded double (with the canonical NaN preserved)
fails on this input. -/
theorem canonicalNanTypedNil :
    isNanBits 0x7ff8000000000000 = true ∧
    getType (encodeDouble 0x7ff8000000000000) = ValueType.NIL ∧
    ValueType.NIL ≠ ValueType.DOUBLE := by
  refine ⟨by decide, by decide, by decide⟩

/-- Witness: the round-trip theorem applied at n = -5, p = 0x1234, the bit pattern
of 3.0, the signalling payload 1, and bo = true. -/
theorem valueEncodingRoundTrip_witness :
    (decodeInt (encodeInt (-5)) = -5 ∧ getType (encodeInt (-5)) = ValueType.INT) ∧
    (decodeBool (encodeBool true) = true ∧ getType (encodeBool true) = ValueType.BOOL) ∧
    getType encodeNil = ValueType.NIL ∧
    (decodeObj (encodeObj 0x1234) = 0x1234 ∧ getType (encodeObj 0x1234) = ValueType.OBJ) ∧
    decodeDouble (encodeDouble 0x4008000000000000) = 0x4008000000000000 ∧
    (expField 0x4008000000000000 ≠ 2 ^ 11 - 1 →
      getType (encodeDouble 0x4008000000000000) = ValueType.DOUBLE) ∧
    getType (encodeDouble (2 ^ 48 * 0x7ff0 + 1)) = ValueType.DOUBLE :=
  valueEncodingRoundTrip (-5) 0x1234 0x4008000000000000 1 true (by decide) (by decide)
    (by decide) (by decide) (by decide)

/-! ## Object heap view and equality (equals in valueHelpersInline.cpp) -/

/-- Heap objects as far as equals observes them: a string object carries its
contents; any other object carries only the text its toString would print. -/
inductive HObj where
  | str (s : String)
  | nonstr (printed : String)
deriving DecidableEq, Repr

/-- Association-list lookup of an object address in the heap view. -/
def lookupObj (H : List (Nat × HObj)) (p : Nat) : Option HObj :=
  match H with
  | [] => none
  | e :: rest => if e.1 = p then some e.2 else lookupObj rest p

/-- Test of decodeObj(x)->type == ObjType::STRING against the heap view. -/
def isStringObj (H : List (Nat × HObj)) (p : Nat) : Bool :=
  match lookupObj H p with
  | some (HObj.str _) => true
  | _ => false

/-- Contents produced by the toString call in equals. -/
def toStringObj (H : List (Nat × HObj)) (p : Nat) : String :=
  match lookupObj H p with
  | some (HObj.str s) => s
  | some (HObj.nonstr r) => r
  | none => ""

/-- Exact rational value of a finite IEEE-754 double bit pattern. -/
def toRatF (b : Nat) : Rat :=
  let sign : Rat := if b / 2 ^ 63 % 2 = 1 then -1 else 1
  if expField b = 0 then sign * (mantissaField b : Rat) / (2 : Rat) ^ 1074
  else sign * ((2 ^ 52 + mantissaField b : Nat) : Rat) * (2 : Rat) ^ expField b / (2 : Rat) ^ 1075

def DBL_EPSILON : Rat := 1 / 2 ^ 52

/-- Modelled from the spec: the FLOAT_EQ macro used by equals is not among the
given sources; per the spec it is approximate equality of the two doubles within
DBL_EPSILON.  The bit patterns are decoded into exact rationals; a comparison
involving a NaN or an infinity is false. -/
def FLOAT_EQ (x y : Nat) : Bool :=
  !isNanBits x && !isInfBits x && !isNanBits y && !isInfBits y &&
    decide (|toRatF x - toRatF y| ≤ DBL_EPSILON)

/-- Dispatch of equals in valueHelpersInline.cpp: mismatched kinds are unequal,
doubles compare through FLOAT_EQ, an object operand whose left side is a string
compares by contents, everything else compares the raw 64-bit payloads. -/
def equals (H : List (Nat × HObj)) (x y : Nat) : Bool :=
  if getType x ≠ getType y then false
  else if getType x = ValueType.DOUBLE then FLOAT_EQ x y
  else if (getType x == ValueType.OBJ) && isStringObj H (decodeObj x) then
    toStringObj H (decodeObj x) == toStringObj H (decodeObj y)
  else x == y

/-- C6 (amended): equals returns false on mismatched kinds (in particular an int
never equals a double), compares two doubles through FLOAT_EQ (spec-modelled
approximate equality within DBL_EPSILON), compares string objects by contents
(so two distinct string objects with equal contents are equal), compares all
remaining same-kind values by their raw 64-bit payloads, and is reflexive on
every value except doubles whose bit pattern is a NaN or an infinity. -/
theorem equalsSpec (H : List (Nat × HObj)) (x y p q : Nat) (s : String) (n : Int) (b : Nat)
    (hb : b < 2 ^ 64) :
    (getType x ≠ getType y → equals H x y = false) ∧
    (expField b ≠ 2 ^ 11 - 1 → equals H (encodeInt n) (encodeDouble b) = false) ∧
    (getType x = ValueType.DOUBLE → getType y = ValueType.DOUBLE →
      equals H x y = FLOAT_EQ x y) ∧
    (p < 2 ^ 48 → q < 2 ^ 48 → isStringObj H p = true →
      equals H (encodeObj p) (encodeObj q) = (toStringObj H p == toStringObj H q)) ∧
    (p ≠ q → p < 2 ^ 48 → q < 2 ^ 48 →
      lookupObj H p = some (HObj.str s) → lookupObj H q = some (HObj.str s) →
      equals H (encodeObj p) (encodeObj q) = true) ∧
    (getType x = getType y → getType x ≠ ValueType.DOUBLE →
      (getType x = ValueType.OBJ → isStringObj H (decodeObj x) = false) →
      equals H x y = (x == y)) ∧
    ((getType x = ValueType.DOUBLE → isNanBits x = false) →
      (getType x = ValueType.DOUBLE → isInfBits x = false) →
      equals H x x = true) := by
  refine ⟨?_, ?_, ?_, ?_, ?_, ?_, ?_⟩
  · intro h
    simp [equals, h]
  · intro h
    have hi : getType (encodeInt n) = ValueType.INT := getType_encodeInt n
    have hd : getType (encodeDouble b) = ValueType.DOUBLE := getType_double_of_exp b hb h
    simp [equals, hi, hd]
  · intro hx hy
    simp [equals, hx, hy]
  · intro hp hq hs
    have h1 : getType (encodeObj p) = ValueType.OBJ := getType_encodeObj p hp
    have h2 : getType (encodeObj q) = ValueType.OBJ := getType_encodeObj q hq
    simp [equals, h1, h2, decodeObj_encodeObj p hp, decodeObj_encodeObj q hq, hs]
  · intro hne hp hq hlp hlq
    have h1 : getType (encodeObj p) = ValueType.OBJ := getType_encodeObj p hp
    have h2 : getType (encodeObj q) = ValueType.OBJ := getType_encodeObj q hq
    have hs : isStringObj H p = true := by simp [isStringObj, hlp]
    simp [equals, h1, h2, decodeObj_encodeObj p hp, decodeObj_encodeObj q hq, hs,
      toStringObj, hlp, hlq]
  · intro heq hnd hns
    have c1 : ¬ (getType x ≠ getType y) := by simp [heq]
    have c3 : ¬ (((getType x == ValueType.OBJ) && isStringObj H (decodeObj x)) = true) := by
      by_cases ho : getType x = ValueType.OBJ
      · simp [hns ho]
      · simp [ho]
    unfold equals
    rw [if_neg c1, if_neg hnd, if_neg c3]
  · intro hNan hInf
    by_cases hd : getType x = ValueType.DOUBLE
    · have h1 := hNan hd
      have h2 := hInf hd
      simp [equals, hd, FLOAT_EQ, h1, h2, DBL_EPSILON]
    · by_cases hs : (getType x == ValueType.OBJ) && isStringObj H (decodeObj x)
      · simp [equals, hd, hs]
      · simp [equals, hd, hs]

/-- C6 counterexample: two failures of the claim as stated.  First, positive
infinity (bit pattern 0x7ff0000000000000) is typed DOUBLE by getType and is not
a NaN, yet equals is not reflexive on it under the spec-modelled FLOAT_EQ,
refuting the clause that equals(x,x) holds for every x that is not a NaN double.
Second, equals tests only its left operand for stringness and then compares the
toString output of both sides: a string object (address 5, contents "mtx")
compared with a distinct non-string object (address 9) whose printed form is
"mtx" yields true, although the pair is not two string objects and the claimed
otherwise-bitwise clause demands equality of the 64-bit payloads, which differ. -/
theorem equalsClaimCounterexamples :
    (isNanBits 0x7ff0000000000000 = false ∧
      getType (encodeDouble 0x7ff0000000000000) = ValueType.DOUBLE ∧
      equals [] 0x7ff0000000000000 0x7ff0000000000000 = false) ∧
    (isStringObj [(5, HObj.str "mtx"), (9, HObj.nonstr "mtx")] 5 = true ∧
      isStringObj [(5, HObj.str "mtx"), (9, HObj.nonstr "mtx")] 9 = false ∧
      encodeObj 5 ≠ encodeObj 9 ∧
      (encodeObj 5 == encodeObj 9) = false ∧
      equals [(5, HObj.str "mtx"), (9, HObj.nonstr "mtx")]
        (encodeObj 5) (encodeObj 9) = true) := by
  refine ⟨⟨by decide, by decide, by decide⟩,
    by decide, by decide, by decide, by decide, by decide⟩

/-- Witness: the equals specification applied with a two-string heap at concrete
values, including reflexivity at the int value 7. -/
theorem equalsSpec_witness :
    (getType (encodeInt 1) ≠ getType encodeNil → equals [] (encodeInt 1) encodeNil = false) ∧
    (expField 0x4008000000000000 ≠ 2 ^ 11 - 1 →
      equals [] (encodeInt 3) (encodeDouble 0x4008000000000000) = false) ∧
    (getType (encodeInt 1) = ValueType.DOUBLE → getType encodeNil = ValueType.DOUBLE →
      equals [] (encodeInt 1) encodeNil = FLOAT_EQ (encodeInt 1) encodeNil) ∧
    (5 < 2 ^ 48 → 9 < 2 ^ 48 → isStringObj [(5, HObj.str "hi"), (9, HObj.str "hi")] 5 = true →
      equals [(5, HObj.str "hi"), (9, HObj.str "hi")] (encodeObj 5) (encodeObj 9) =
        (toStringObj [(5, HObj.str "hi"), (9, HObj.str "hi")] 5 ==
          toStringObj [(5, HObj.str "hi"), (9, HObj.str "hi")] 9)) ∧
    (5 ≠ 9 → 5 < 2 ^ 48 → 9 < 2 ^ 48 →
      lookupObj [(5, HObj.str "hi"), (9, HObj.str "hi")] 5 = some (HObj.str "hi") →
      lookupObj [(5, HObj.str "hi"), (9, HObj.str "hi")] 9 = some (HObj.str "hi") →
      equals [(5, HObj.str "hi"), (9, HObj.str "hi")] (encodeObj 5) (encodeObj 9) = true) ∧
    (getType (encodeInt 1) = getType encodeNil → getType (encodeInt 1) ≠ ValueType.DOUBLE →
      (getType (encodeInt 1) = ValueType.OBJ →
        isStringObj [(5, HObj.str "hi"), (9, HObj.str "hi")] (decodeObj (encodeInt 1)) = false) →
      equals [(5, HObj.str "hi"), (9, HObj.str "hi")] (encodeInt 1) encodeNil =
        (encodeInt 1 == encodeNil)) ∧
    ((getType (encodeInt 7) = ValueType.DOUBLE → isNanBits (encodeInt 7) = false) →
      (getType (encodeInt 7) = ValueType.DOUBLE → isInfBits (encodeInt 7) = false) →
      equals [(5, HObj.str "hi"), (9, HObj.str "hi")] (encodeInt 7) (encodeInt 7) = true) := by
  have h1 := equalsSpec [] (encodeInt 1) encodeNil 5 9 "hi" 3 0x4008000000000000 (by decide)
  have h2 := equalsSpec [(5, HObj.str "hi"), (9, HObj.str "hi")] (encodeInt 1) encodeNil
    5 9 "hi" 3 0x4008000000000000 (by decide)
  have h3 := equalsSpec [(5, HObj.str "hi"), (9, HObj.str "hi")] (encodeInt 7) encodeNil
    5 9 "hi" 3 0x4008000000000000 (by decide)
  exact ⟨h1.1, h1.2.1, h1.2.2.1, h2.2.2.2.1, h2.2.2.2.2.1, h2.2.2.2.2.2.1,
    h3.2.2.2.2.2.2⟩

/-! ## Garbage collector (garbageCollector.cpp) -/

/-- Heap object as the sweep phase observes it: its mark bit, the result of
getSize(), and an identity distinguishing allocations. -/
structure Obj where
  marked : Bool
  size : Nat
  id : Nat
deriving DecidableEq, Repr

/-- Collector state: the live-objects list, the string intern map (contents
mapped to the object identity of the interned string), the heap byte counter,
the collection threshold, and the atomic shouldCollect flag. -/
structure GCState where
  objects : List Obj
  interned : List (String × Nat)
  heapSize : Nat
  heapSizeLimit : Nat
  shouldCollect : Bool
  childThreadsReleased : Bool
deriving DecidableEq, Repr

/-- Mark-bit lookup for the object with a given identity. -/
def isMarkedIn (objs : List Obj) (i : Nat) : Bool :=
  match objs with
  | [] => false
  | o :: rest => if o.id = i then o.marked else isMarkedIn rest i

/-- Loop of GarbageCollector::sweep over the objects list, iterated from the last
index down: an unmarked object is destroyed and erased, a marked object has its
mark cleared and its size added to the rebuilt heap counter. -/
def sweepObjects : List Obj → List Obj × Nat
  | [] => ([], 0)
  | o :: rest =>
    let r := sweepObjects rest
    if o.marked then ({ o with marked := false } :: r.1, o.size + r.2) else r

/-- GarbageCollector::sweep: the counter is rebuilt from zero, the intern map is
pruned of entries whose string object is unmarked before the objects are swept,
then the objects list is swept. -/
def sweep (st : GCState) : GCState :=
  let interned := st.interned.filter (fun e => isMarkedIn st.objects e.2)
  let r := sweepObjects st.objects
  { st with interned := interned, objects := r.1, heapSize := r.2 }

theorem sweepObjects_spec (objs : List Obj) :
    sweepObjects objs =
      ((objs.filter (fun o => o.marked)).map (fun o => { o with marked := false }),
        ((objs.filter (fun o => o.marked)).map (fun o => o.size)).sum) := by
  induction objs with
  | nil => rfl
  | cons o rest ih =>
    by_cases h : o.marked <;> simp [sweepObjects, ih, h, List.filter_cons]

/-- C7: after sweep, the objects list holds exactly the previously marked objects
with their marks cleared (every unmarked entry has been destroyed and removed),
the heapSize counter is the sum of the sizes of exactly the survivors, and the
intern map has been pruned, using the pre-sweep marks, of every entry whose
string object was unmarked. -/
theorem sweepSpec (st : GCState) :
    (sweep st).objects =
      (st.objects.filter (fun o => o.marked)).map (fun o => { o with marked := false }) ∧
    (sweep st).heapSize = ((st.objects.filter (fun o => o.marked)).map (fun o => o.size)).sum ∧
    (sweep st).interned = st.interned.filter (fun e => isMarkedIn st.objects e.2) ∧
    (sweep st).objects.all (fun o => !o.marked) = true := by
  refine ⟨by simp [sweep, sweepObjects_spec], by simp [sweep, sweepObjects_spec],
    rfl, ?_⟩
  simp [sweep, sweepObjects_spec, List.all_eq_true]

/-- GarbageCollector::collect(vm): mark the roots and drain the mark stack
(abstracted as markFn), sweep, then execute the statement
heapSizeLimit << 1 whose shifted value the source discards without assigning,
clear shouldCollect, and release all child threads. -/
def collect (markFn : GCState → GCState) (st : GCState) : GCState :=
  let m := sweep (markFn st)
  let discardedShift := m.heapSizeLimit <<< 1
  let m := if m.heapSize > m.heapSizeLimit then m else m
  let _ := discardedShift
  { m with shouldCollect := false, childThreadsReleased := true }

/-- Collector state before the demonstration collection: one marked object of
size 100 survives, the threshold is 50 and a collection was requested. -/
def collectDemoState : GCState :=
  { objects := [{ marked := true, size := 100, id := 0 }]
    interned := []
    heapSize := 100
    heapSizeLimit := 50
    shouldCollect := true
    childThreadsReleased := false }

/-- C8: evaluation of collect at a state whose post-sweep heapSize (100) still
exceeds the pre-collect heapSizeLimit (50).  The flag is cleared and the child
threads are released, but the threshold is left at 50 instead of being doubled:
the doubling statement in the source computes heapSizeLimit << 1 and discards
the result. -/
theorem collectEval :
    collectDemoState.heapSizeLimit = 50 ∧
    (collect id collectDemoState).heapSize = 100 ∧
    (collect id collectDemoState).heapSize > collectDemoState.heapSizeLimit ∧
    (collect id collectDemoState).heapSizeLimit = 50 ∧
    (collect id collectDemoState).heapSizeLimit ≠ 2 * collectDemoState.heapSizeLimit ∧
    (collect id collectDemoState).shouldCollect = false ∧
    (collect id collectDemoState).childThreadsReleased = true := by
  refine ⟨rfl, by decide, by decide, by decide, by decide, by decide, by decide⟩

/-! ## Allocation (GarbageCollector::alloc) -/

/-- Allocator state: the raw objects list (a block address, or none for the null
pointer appended after a failed allocation), the heap counter and threshold, the
shouldCollect flag, the pause request issued to the VM, and the number of system
errors reported. -/
structure AllocState where
  objects : List (Option Nat)
  heapSize : Nat
  heapSizeLimit : Nat
  shouldCollect : Bool
  pauseRequested : Bool
  systemErrors : Nat
deriving DecidableEq, Repr

/-- GarbageCollector::alloc: under the allocator mutex the counter is bumped by
the requested size; crossing the threshold sets shouldCollect and asks the VM to
pause; the underlying new-expression either yields a block or throws bad_alloc,
in which case a system error is reported and the block stays null; the block —
null or not — is appended to the objects list and returned. -/
def alloc (st : AllocState) (size : Nat) (block : Option Nat) :
    AllocState × Option Nat :=
  let heapSize := st.heapSize + size
  let over := heapSize > st.heapSizeLimit
  let st := { st with
    heapSize := heapSize
    shouldCollect := st.shouldCollect || over
    pauseRequested := st.pauseRequested || over }
  let st := if block.isNone then { st with systemErrors := st.systemErrors + 1 } else st
  ({ st with objects := st.objects ++ [block] }, block)

/-- C10: every alloc appends exactly one entry to the objects list and adds the
requested size to the heap counter; on allocation failure the system error is
reported, a null entry is nevertheless appended, the counter stays incremented,
and null is returned to the caller. -/
theorem allocSpec (st : AllocState) (size p : Nat) :
    ((alloc st size (some p)).1.objects = st.objects ++ [some p] ∧
      (alloc st size (some p)).1.objects.length = st.objects.length + 1 ∧
      (alloc st size (some p)).1.heapSize = st.heapSize + size ∧
      (alloc st size (some p)).1.systemErrors = st.systemErrors ∧
      (alloc st size (some p)).2 = some p) ∧
    ((alloc st size none).1.objects = st.objects ++ [none] ∧
      (alloc st size none).1.objects.length = st.objects.length + 1 ∧
      (alloc st size none).1.heapSize = st.heapSize + size ∧
      (alloc st size none).1.systemErrors = st.systemErrors + 1 ∧
      (alloc st size none).2 = none) ∧
    (alloc st size (some p)).1.shouldCollect =
      (st.shouldCollect || decide (st.heapSize + size > st.heapSizeLimit)) := by
  refine ⟨⟨rfl, by simp [alloc], rfl, rfl, rfl⟩, ⟨rfl, by simp [alloc], rfl, rfl, rfl⟩, rfl⟩

/-! ## Upvalue capture and access (thread.cpp) -/

/-- Stack-slot or cell contents as the upvalue opcodes observe them: a plain
value, or a reference to an ObjUpval cell (the isUpvalue case). -/
inductive UVal where
  | vint (n : Int)
  | vupval (cellId : Nat)
deriving DecidableEq, Repr

/-- Frame-local machine state for the closure opcodes: the stack slots of the
frame and the heap of ObjUpval cells, addressed by allocation order. -/
structure UState where
  slots : List UVal
  cells : List UVal
deriving DecidableEq, Repr

/-- captureUpvalue in thread.cpp: a new ObjUpval takes the slot's current Value —
whatever it is — and the slot is overwritten in place with a reference to the
new cell; the new cell is returned.  There is no check whether the slot already
holds an upvalue. -/
def captureUpvalue (st : UState) (slot : Nat) : UState × Nat :=
  let old := st.slots.getD slot (UVal.vint 0)
  let id := st.cells.length
  ({ slots := st.slots.set slot (UVal.vupval id), cells := st.cells ++ [old] }, id)

/-- Upvalue descriptor list of OpCode::CLOSURE: for each (isLocal, index) pair, a
local is captured from the frame's slots and an enclosing upvalue is copied by
reference from the running closure's upvalue array. -/
def closureCapture (st : UState) (enclosing : List Nat) :
    List (Bool × Nat) → UState × List Nat
  | [] => (st, [])
  | (isLocal, index) :: rest =>
    if isLocal then
      let r := captureUpvalue st index
      let rec0 := closureCapture r.1 enclosing rest
      (rec0.1, r.2 :: rec0.2)
    else
      let rec0 := closureCapture st enclosing rest
      (rec0.1, enclosing.getD index 0 :: rec0.2)

/-- OpCode::GET_UPVALUE: reads indirect through the cell. -/
def getUpvalue (st : UState) (upvals : List Nat) (slot : Nat) : UVal :=
  st.cells.getD (upvals.getD slot 0) (UVal.vint 0)

/-- OpCode::SET_UPVALUE: writes indirect through the cell. -/
def setUpvalue (st : UState) (upvals : List Nat) (slot : Nat) (v : UVal) : UState :=
  { st with cells := st.cells.set (upvals.getD slot 0) v }

/-- OpCode::GET_LOCAL: a slot holding an upvalue is read through the cell. -/
def getLocal (st : UState) (slot : Nat) : UVal :=
  match st.slots.getD slot (UVal.vint 0) with
  | UVal.vupval id => st.cells.getD id (UVal.vint 0)
  | v => v

/-- OpCode::SET_LOCAL: a slot holding an upvalue is written through the cell. -/
def setLocal (st : UState) (slot : Nat) (v : UVal) : UState :=
  match st.slots.getD slot (UVal.vint 0) with
  | UVal.vupval id => { st with cells := st.cells.set id v }
  | _ => { st with slots := st.slots.set slot v }

/-- State of the capture scenario: one local x = 5 in slot 0. -/
def uvInit : UState := { slots := [UVal.vint 5], cells := [] }

/-- First sibling closure capturing local slot 0. -/
def uvStep1 : UState × Nat := captureUpvalue uvInit 0

/-- Second sibling closure capturing the same local slot 0. -/
def uvStep2 : UState × Nat := captureUpvalue uvStep1.1 0

/-- State after SET_UPVALUE of 7 through the first closure's upvalue. -/
def uvStep3 : UState := setUpvalue uvStep2.1 [uvStep1.2] 0 (UVal.vint 7)

/-- C1: evaluation of two sibling CLOSURE captures of the same local.  The second
captureUpvalue wraps the first upvalue object itself into a fresh cell instead of
reusing it, so after a SET_UPVALUE of 7 through the first closure, a GET_UPVALUE
through the second closure still yields the stale wrapped reference (and a
GET_LOCAL on the original slot reads the second cell, not the written 7): the
sibling closures do not share one cell, refuting the shared-cell interleaving
claim at this input. -/
theorem siblingCapturesSeparateCells :
    uvStep1.2 ≠ uvStep2.2 ∧
    uvStep2.1.cells.getD uvStep2.2 (UVal.vint 0) = UVal.vupval uvStep1.2 ∧
    getUpvalue uvStep3 [uvStep1.2] 0 = UVal.vint 7 ∧
    getUpvalue uvStep3 [uvStep2.2] 0 = UVal.vupval uvStep1.2 ∧
    getUpvalue uvStep3 [uvStep2.2] 0 ≠ getUpvalue uvStep3 [uvStep1.2] 0 ∧
    getLocal uvStep3 0 = UVal.vupval uvStep1.2 ∧
    getLocal uvStep3 0 ≠ UVal.vint 7 := by
  refine ⟨by decide, by decide, by decide, by decide, by decide, by decide, by decide⟩

/-! ## Switch compilation (Compiler::visitSwitchStmt) and dispatch (OpCode::SWITCH)

Bytecode is a list of byte values and the constant pool a list of 64-bit Values;
the case-constant indexes all fit in a byte, which is the short SWITCH form the
compiler selects when no index exceeds SHORT_CONSTANT_LIMIT.  The numeric values
of the opcode bytes are not among the given sources; the dispatch reads only the
operand layout, never the opcode bytes, so the placeholders below are immaterial. -/

def opSWITCH : Nat := 30
def opJUMP : Nat := 31

/-- Bytecode chunk: code bytes plus the parallel constant pool. -/
structure BChunk where
  code : List Nat
  constants : List Nat
deriving DecidableEq, Repr

def emitByte (ch : BChunk) (b : Nat) : BChunk := { ch with code := ch.code ++ [b] }

/-- Big-endian 16-bit emission (Compiler::emit16Bit). -/
def emit16Bit (ch : BChunk) (n : Nat) : BChunk :=
  emitByte (emitByte ch (n / 256 % 256)) (n % 256)

def emitByteAnd16Bit (ch : BChunk) (b n : Nat) : BChunk := emit16Bit (emitByte ch b) n

/-- Chunk::addConstant via Compiler::makeConstant: append and return the index. -/
def makeConstant (ch : BChunk) (v : Nat) : BChunk × Nat :=
  ({ ch with constants := ch.constants ++ [v] }, ch.constants.length)

/-- Compiler::emitJump: opcode plus a 0xffff placeholder; returns the slot offset. -/
def emitJump (ch : BChunk) (op : Nat) : BChunk × Nat :=
  let ch := emitByte (emitByte (emitByte ch op) 0xff) 0xff
  (ch, ch.code.length - 2)

/-- Overwrite of a big-endian 16-bit slot in place. -/
def set16 (code : List Nat) (offset jump : Nat) : List Nat :=
  (code.set offset (jump / 256 % 256)).set (offset + 1) (jump % 256)

/-- Compiler::patchJump: the slot at offset receives the distance from just past
the slot to the current end of the bytecode. -/
def patchJump (ch : BChunk) (offset : Nat) : BChunk :=
  { ch with code := set16 ch.code offset (ch.code.length - offset - 2) }

/-- Source form of one switch case: its constant Values (already encoded; empty
for the default case), its compiled body bytes, and the default flag. -/
structure CaseSrc where
  constantsV : List Nat
  body : List Nat
  isDefault : Bool
deriving DecidableEq, Repr

/-- Registration of one case's constants in the pool, collecting their indexes. -/
def addConstList (ch : BChunk) : List Nat → BChunk × List Nat
  | [] => (ch, [])
  | v :: rest =>
    let r1 := makeConstant ch v
    let r2 := addConstList r1.1 rest
    (r2.1, r1.2 :: r2.2)

/-- First loop of visitSwitchStmt: every case constant is added to the pool in
case order, producing the flat list of constant indexes. -/
def addCaseConstants (ch : BChunk) : List CaseSrc → BChunk × List Nat
  | [] => (ch, [])
  | c :: rest =>
    let r1 := addConstList ch c.constantsV
    let r2 := addCaseConstants r1.1 rest
    (r2.1, r1.2 ++ r2.2)

/-- Placeholder jump slots emitted after the constant indexes, one per constant;
returns the recorded slot offsets. -/
def emitJumpSlots (ch : BChunk) : Nat → BChunk × List Nat
  | 0 => (ch, [])
  | n + 1 =>
    let pos := ch.code.length
    let ch := emit16Bit ch 0xffff
    let r := emitJumpSlots ch n
    (r.1, pos :: r.2)

/-- Patching of n consecutive pending case jumps starting at position i. -/
def patchMany (jumps : List Nat) : BChunk → Nat → Nat → BChunk
  | ch, _, 0 => ch
  | ch, i, n + 1 => patchMany jumps (patchJump ch (jumps.getD i 0)) (i + 1) n

/-- Body loop of visitSwitchStmt: before a default case the trailing jump slot is
patched, before an ordinary case one slot per constant is patched; the case body
is emitted in its own scope and followed by the implicit-break jump, whose slot
offset is collected.  (The scenario has no advance or break statements, so the
patchScopeJumps calls move nothing.) -/
def compileCases (jumps : List Nat) : BChunk → Nat → List CaseSrc → BChunk × List Nat
  | ch, _, [] => (ch, [])
  | ch, i, c :: rest =>
    let ch1 :=
      if c.isDefault then patchJump ch (jumps.getD (jumps.length - 1) 0)
      else patchMany jumps ch i c.constantsV.length
    let i1 := if c.isDefault then i else i + c.constantsV.length
    let ch2 : BChunk := { ch1 with code := ch1.code ++ c.body }
    let r := emitJump ch2 opJUMP
    let rec0 := compileCases jumps r.1 i1 rest
    (rec0.1, r.2 :: rec0.2)

/-- Compiler::visitSwitchStmt, short form: SWITCH, the 16-bit constant count, one
index byte per constant, one 16-bit placeholder jump slot per constant plus the
trailing default slot, then the case bodies with their patches and implicit
breaks.  When hasDefault is false the source assigns the current bytecode size
to the last element of the local jumps vector — the bytecode itself is left
untouched, so the trailing slot keeps its 0xffff placeholder — and finally all
implicit breaks are patched to the end of the switch. -/
def visitSwitchStmt (ch : BChunk) (cases : List CaseSrc) (hasDefault : Bool) : BChunk :=
  let r1 := addCaseConstants ch cases
  let idxs := r1.2
  let ch := emitByteAnd16Bit r1.1 opSWITCH idxs.length
  let ch := idxs.foldl emitByte ch
  let r2 := emitJumpSlots ch idxs.length
  let ch := r2.1
  let posDef := ch.code.length
  let ch := emit16Bit ch 0xffff
  let jumps := r2.2 ++ [posDef]
  let r3 := compileCases jumps ch 0 cases
  let ch := r3.1
  let _ := hasDefault
  r3.2.foldl patchJump ch

/-- READ_SHORT of the dispatch loop: big-endian 16-bit read at ip. -/
def readShort (code : List Nat) (ip : Nat) : Nat :=
  256 * code.getD ip 0 + code.getD (ip + 1) 0

/-- Case-scan loop of OpCode::SWITCH: the scrutinee is compared with the raw
64-bit == against each case constant in order; the first match wins. -/
def findCase (code constants : List Nat) (ipc v : Nat) : Nat → Nat → Option Nat
  | _, 0 => none
  | i, n + 1 =>
    if constants.getD (code.getD (ipc + i) 0) 0 = v then some i
    else findCase code constants ipc v (i + 1) n

/-- OpCode::SWITCH in thread.cpp: read the case count, scan the constant-index
bytes for a raw == match, select the matched jump slot (the trailing slot when
nothing matched), read the 16-bit offset there and advance the ip past the slot
by that offset.  ip0 is the position just after the opcode byte; the function
returns the new ip. -/
def execSWITCH (code constants : List Nat) (ip0 v : Nat) : Nat :=
  let caseNum := readShort code ip0
  let ipc := ip0 + 2
  let offset := ipc + caseNum
  let jumpOffset :=
    match findCase code constants ipc v 0 caseNum with
    | some i => offset + 2 * i
    | none => offset + 2 * caseNum
  let jmp := readShort code jumpOffset
  jumpOffset + 2 + jmp

/-- Switch scenario with two cases and no default. -/
def switchCases : List CaseSrc :=
  [ { constantsV := [111], body := [7, 7, 7], isDefault := false },
    { constantsV := [222], body := [8, 8], isDefault := false } ]

/-- Same scenario plus a trailing default case. -/
def switchCasesDef : List CaseSrc :=
  switchCases ++ [ { constantsV := [], body := [9], isDefault := true } ]

def emptyChunk : BChunk := { code := [], constants := [] }

def progNoDefault : BChunk := visitSwitchStmt emptyChunk switchCases false

def progWithDefault : BChunk := visitSwitchStmt emptyChunk switchCasesDef true

/-- C2: evaluation of the compiled switch scenarios.  A scrutinee equal to a case
constant reaches that case's body (offsets 11 and 17) and, with a default case
present, a non-matching scrutinee reaches the default body (offset 22).  Without
a default case the trailing jump slot keeps its 0xffff placeholder, so a
non-matching scrutinee sets the ip to 65546, far past the 22-byte program,
instead of the first instruction past the switch. -/
theorem switchDispatchEval :
    execSWITCH progNoDefault.code progNoDefault.constants 1 111 = 11 ∧
    execSWITCH progNoDefault.code progNoDefault.constants 1 222 = 17 ∧
    execSWITCH progWithDefault.code progWithDefault.constants 1 111 = 11 ∧
    execSWITCH progWithDefault.code progWithDefault.constants 1 999 = 22 ∧
    progNoDefault.code.length = 22 ∧
    readShort progNoDefault.code 9 = 0xffff ∧
    execSWITCH progNoDefault.code progNoDefault.constants 1 999 = 65546 := by
  refine ⟨by decide, by decide, by decide, by decide, by decide, by decide, by decide⟩

/-! ## Class declarations (Compiler::visitClassDecl) and method lookup (thread.cpp) -/

/-- Compile-time class object: its name and its method table, mapping method
names to compiled closure identities. -/
structure ObjClass where
  name : String
  methods : List (String × Nat)
deriving DecidableEq, Repr

/-- Global slot contents as class compilation observes them. -/
inductive GVal where
  | nil
  | cls (c : ObjClass)
  | other
deriving DecidableEq, Repr

/-- Map insert-or-assign used for method tables and field maps. -/
def insertOrAssign (m : List (String × Nat)) (k : String) (v : Nat) : List (String × Nat) :=
  if m.any (fun e => e.1 = k) then m.map (fun e => if e.1 = k then (k, v) else e)
  else m ++ [(k, v)]

/-- Association-list lookup by name. -/
def lookupName (m : List (String × Nat)) (k : String) : Option Nat :=
  match m with
  | [] => none
  | e :: rest => if e.1 = k then some e.2 else lookupName rest k

/-- Global-slot lookup by name. -/
def lookupGlobal (globals : List (String × GVal)) (k : String) : Option GVal :=
  match globals with
  | [] => none
  | e :: rest => if e.1 = k then some e.2 else lookupGlobal rest k

/-- Compiler::visitClassDecl: the optional superclass name is resolved to a
global slot, which must hold a class (compile error otherwise; the superclass is
then recorded in the compile-time ClassChunkInfo for super resolution); the new
class object receives the class's own methods — and only those — and is stored
directly into the class's global slot.  No INHERIT opcode is emitted and no
method of the superclass is copied into the new table. -/
def visitClassDecl (globals : List (String × GVal)) (className : String)
    (superName : Option String) (ownMethods : List (String × Nat)) :
    Except String (List (String × GVal) × Option ObjClass) := do
  let superclass ← match superName with
    | none => pure none
    | some s =>
      match lookupGlobal globals s with
      | some (GVal.cls c) => pure (some c)
      | some _ => Except.error "Variable isn't a class."
      | none => Except.error "Variable isn't defined."
  let klass : ObjClass :=
    { name := className
      methods := ownMethods.foldl (fun m e => insertOrAssign m e.1 e.2) [] }
  pure (globals ++ [(className, GVal.cls klass)], superclass)

/-- runtime::Thread::bindMethod and invokeFromClass: method search consults only
the receiver class's own method table. -/
def findMethod (klass : ObjClass) (name : String) : Option Nat :=
  lookupName klass.methods name

/-- Compilation of the inheritance scenario: class A with methods greet (closure
0) and foo (closure 1), then class B : A with its own greet (closure 2). -/
def classScenario :
    Except String (List (String × GVal) × Option ObjClass) := do
  let rA ← visitClassDecl [] "A" none [("greet", 0), ("foo", 1)]
  visitClassDecl rA.1 "B" (some "A") [("greet", 2)]

/-- C3: evaluation of the inheritance scenario.  Super resolves to the global
slot of A and is required to be a class, and B's own greet plus the recorded
superclass make super.greet() find A's greet (the "BA" chain), but A's method
table is never copied into B: looking up the inherited method foo on B fails,
so an instance of B cannot invoke every inherited method as claimed. -/
theorem classInheritanceEval :
    ∃ r, classScenario = Except.ok r ∧
      (∃ cB, lookupGlobal r.1 "B" = some (GVal.cls cB) ∧
        findMethod cB "greet" = some 2 ∧
        findMethod cB "foo" = none) ∧
      (∃ cA, r.2 = some cA ∧ findMethod cA "greet" = some 0 ∧
        findMethod cA "foo" = some 1) ∧
      visitClassDecl [("A", GVal.nil)] "B" (some "A") [] =
        Except.error "Variable isn't a class." := by
  refine ⟨_, rfl, ⟨_, rfl, rfl, rfl⟩, ⟨_, rfl, rfl, rfl⟩, rfl⟩

/-! ## Runtime error codes (thread.cpp) -/

/-- Kind of the callee value as OpCode::CALL's dispatch in callValue sees it.
The callable object kinds carry what the dispatch inspects; every other object
kind and every non-object value falls through to the type error. -/
inductive CalleeKind where
  | closure (arity : Int)
  | native (arity : Int)
  | boundNative (arity : Int)
  | classK (ctorArity : Option Int)
  | boundMethod (arity : Int)
  | stringO
  | arrayO
  | instanceO
  | otherObj
  | nonObj
deriving DecidableEq, Repr

/-- runtime::Thread::call: an argument count different from the closure's arity
raises error 2; a full frame array raises error 1; otherwise a frame is pushed. -/
def callClosure (arity argCount : Int) (frameCount framesMax : Nat) : Option Nat :=
  if argCount ≠ arity then some 2
  else if frameCount = framesMax then some 1
  else none

/-- runtime::Thread::callValue: dispatch on the callee kind; native and bound
native functions check their arity unless it is the variadic -1; a class invokes
its constructor when present and otherwise requires zero arguments; every
non-callable kind raises error 3.  The result is the raised error code, if any. -/
def callValue (k : CalleeKind) (argCount : Int) (frameCount framesMax : Nat) : Option Nat :=
  match k with
  | CalleeKind.closure arity => callClosure arity argCount frameCount framesMax
  | CalleeKind.native arity =>
    if arity ≠ -1 ∧ argCount ≠ arity then some 2 else none
  | CalleeKind.boundNative arity =>
    if arity ≠ -1 ∧ argCount ≠ arity then some 2 else none
  | CalleeKind.classK ctorArity =>
    match ctorArity with
    | some a => callClosure a argCount frameCount framesMax
    | none => if argCount ≠ 0 then some 2 else none
  | CalleeKind.boundMethod arity => callClosure arity argCount frameCount framesMax
  | CalleeKind.stringO => some 3
  | CalleeKind.arrayO => some 3
  | CalleeKind.instanceO => some 3
  | CalleeKind.otherObj => some 3
  | CalleeKind.nonObj => some 3

/-- Whether callValue's dispatch reaches the non-callable fall-through for a kind. -/
def nonCallable (k : CalleeKind) : Bool :=
  match k with
  | CalleeKind.stringO | CalleeKind.arrayO | CalleeKind.instanceO
  | CalleeKind.otherObj | CalleeKind.nonObj => true
  | _ => false

/-- checkArrayBounds in thread.cpp: a non-integer index raises error 3, a
negative index raises error 9, and an index greater than values.size() - 1
raises error 9 — with the subtraction performed on the unsigned size_t, so for an
empty array the bound wraps to 2^64 - 1.  The successful result is the index. -/
def checkArrayBounds (isIntIndex : Bool) (index : Int) (len : Nat) : Except Nat Nat :=
  if !isIntIndex then Except.error 3
  else if index < 0 then Except.error 9
  else if index.toNat % 2 ^ 64 > (len + (2 ^ 64 - 1)) % 2 ^ 64 then Except.error 9
  else Except.ok index.toNat

/-- OpCode::GET_PROPERTY on a class instance, with bindMethodToPrimitive and
findNativeMethod folded in: a present field is pushed; otherwise a class method
of the same name is bound; otherwise the name is looked up in the builtin
method table for the receiver's builtin kind (COMMON for instances), and a
missing entry raises error 4. -/
def getProperty (fields : List (String × Nat)) (methods : List (String × Nat))
    (commonTable : List String) (name : String) : Except Nat Nat :=
  match lookupName fields name with
  | some v => Except.ok v
  | none =>
    match lookupName methods name with
    | some m => Except.ok m
    | none => if name ∈ commonTable then Except.ok 0 else Except.error 4

/-- C4: arity mismatch on a closure call raises code 2 for every argument count;
every non-callable callee raises code 3; a negative array index raises code 9 and
an index at or past the length raises code 9 for every non-empty array — but on
an empty array the size_t bound wraps and index 0 passes the bounds check, so no
error 9 is raised there, contradicting the claim; and access of a field missing
from the instance, its class and the builtin table raises code 4. -/
theorem errorCodeSpec (arity argCount : Int) (frameCount framesMax : Nat)
    (k : CalleeKind) (iNeg iBig : Int) (len : Nat)
    (fields methods : List (String × Nat)) (commonTable : List String) (name : String)
    (hne : argCount ≠ arity) (hk : nonCallable k = true)
    (hneg : iNeg < 0) (hlen : 0 < len) (hlen2 : len < 2 ^ 64)
    (hge : 0 ≤ iBig) (hidx : iBig.toNat ≥ len) (hidx2 : iBig < 2 ^ 63)
    (hf : lookupName fields name = none) (hm : lookupName methods name = none)
    (hc : name ∉ commonTable) :
    callValue (CalleeKind.closure arity) argCount frameCount framesMax = some 2 ∧
    callValue k argCount frameCount framesMax = some 3 ∧
    checkArrayBounds true iNeg len = Except.error 9 ∧
    checkArrayBounds true iBig len = Except.error 9 ∧
    checkArrayBounds true iBig 0 = Except.ok iBig.toNat ∧
    checkArrayBounds true 0 0 = Except.ok 0 ∧
    getProperty fields methods commonTable name = Except.error 4 := by
  refine ⟨by simp [callValue, callClosure, hne], ?_, ?_, ?_, ?_, rfl, ?_⟩
  · cases k <;> simp_all [nonCallable, callValue]
  · rw [checkArrayBounds, if_neg (by simp), if_pos hneg]
  · rw [checkArrayBounds, if_neg (by simp), if_neg (not_lt.mpr hge), if_pos (by omega)]
  · rw [checkArrayBounds, if_neg (by simp), if_neg (not_lt.mpr hge), if_neg (by omega)]
  · simp [getProperty, hf, hm, hc]

/-- Witness: the error-code specification applied at a closure of arity 2 called
with 1 argument, a string callee, indexes -1 and 5 against an array of length 3
(and against an empty array), and a field name absent everywhere. -/
theorem errorCodeSpec_witness :
    callValue (CalleeKind.closure 2) 1 0 64 = some 2 ∧
    callValue CalleeKind.stringO 1 0 64 = some 3 ∧
    checkArrayBounds true (-1) 3 = Except.error 9 ∧
    checkArrayBounds true 5 3 = Except.error 9 ∧
    checkArrayBounds true 5 0 = Except.ok (5 : Int).toNat ∧
    checkArrayBounds true 0 0 = Except.ok 0 ∧
    getProperty [("a", 1)] [] [] "b" = Except.error 4 :=
  errorCodeSpec 2 1 0 64 CalleeKind.stringO (-1) 5 3 [("a", 1)] [] [] "b"
    (by decide) (by decide) (by decide) (by decide) (by decide) (by decide)
    (by decide) (by decide) (by decide) (by decide) (by decide)

/-! ## Struct literals and their field maps (thread.cpp) -/

/-- OpCode::CREATE_STRUCT: a fresh class-less instance whose field map receives
one insert_or_assign per field name emitted for the literal. -/
def createStruct (entries : List (String × Nat)) : List (String × Nat) :=
  entries.foldl (fun m e => insertOrAssign m e.1 e.2) []

/-- Struct branch of OpCode::SET (and the identical insert of
OpCode::SET_PROPERTY): the assignment always succeeds, whether it overrides an
existing field or creates a new one. -/
def setField (fields : List (String × Nat)) (name : String) (v : Nat) :
    List (String × Nat) :=
  insertOrAssign fields name v

/-- Struct field branch of OpCode::INCREMENT (argument kinds 4, 5 and 6): a
missing field raises error 4; an existing field is updated in place. -/
def incrementField (fields : List (String × Nat)) (name : String) (v : Nat) :
    Except Nat (List (String × Nat)) :=
  match lookupName fields name with
  | none => Except.error 4
  | some _ => Except.ok (fields.map (fun e => if e.1 = name then (e.1, v) else e))

theorem insertOrAssign_keys (m : List (String × Nat)) (k : String) (v : Nat) :
    (insertOrAssign m k v).map Prod.fst =
      if m.any (fun e => e.1 = k) then m.map Prod.fst else m.map Prod.fst ++ [k] := by
  unfold insertOrAssign
  by_cases h : m.any (fun e => e.1 = k)
  · simp only [h, if_true, List.map_map]
    refine List.map_congr_left ?_
    intro e _
    by_cases h2 : e.1 = k
    · simp [h2]
    · simp [h2]
  · simp [h]

theorem insertOrAssign_keys_subset (m : List (String × Nat)) (k : String) (v : Nat) :
    (insertOrAssign m k v).map Prod.fst ⊆ m.map Prod.fst ++ [k] := by
  rw [insertOrAssign_keys]
  by_cases h : m.any (fun e => e.1 = k)
  · simp only [h, if_true]
    exact List.subset_append_left _ _
  · simp [h]

theorem foldl_insert_keys_subset (entries : List (String × Nat)) :
    ∀ m : List (String × Nat),
      ((entries.foldl (fun m e => insertOrAssign m e.1 e.2) m).map Prod.fst) ⊆
        m.map Prod.fst ++ entries.map Prod.fst := by
  induction entries with
  | nil =>
    intro m
    simp
  | cons e rest ih =>
    intro m
    simp only [List.foldl_cons, List.map_cons]
    refine (ih (insertOrAssign m e.1 e.2)).trans ?_
    intro a ha
    rcases List.mem_append.mp ha with h1 | h2
    · rcases List.mem_append.mp (insertOrAssign_keys_subset m e.1 e.2 h1) with h3 | h4
      · exact List.mem_append.mpr (Or.inl h3)
      · simp only [List.mem_singleton] at h4
        subst h4
        exact List.mem_append.mpr (Or.inr (List.mem_cons_self _ _))
    · exact List.mem_append.mpr (Or.inr (List.mem_cons_of_mem _ h2))

/-- C9 (amended): the field map of a freshly created struct literal holds only
the names emitted by CREATE_STRUCT; the INCREMENT opcodes never add a field —
a missing field raises error 4 and an update preserves the name set — while the
SET and SET_PROPERTY assignments are the sole operations that may add a field
name, namely the one assigned. -/
theorem structFieldInvariant (entries fields : List (String × Nat)) (n1 n2 : String)
    (v w : Nat) (h1 : lookupName fields n1 = none) (h2 : lookupName fields n2 = some w) :
    (createStruct entries).map Prod.fst ⊆ entries.map Prod.fst ∧
    (setField fields n1 v).map Prod.fst ⊆ fields.map Prod.fst ++ [n1] ∧
    incrementField fields n1 v = Except.error 4 ∧
    (incrementField fields n2 v =
        Except.ok (fields.map (fun e => if e.1 = n2 then (e.1, v) else e)) ∧
      (fields.map (fun e => if e.1 = n2 then (e.1, v) else e)).map Prod.fst =
        fields.map Prod.fst) := by
  refine ⟨?_, insertOrAssign_keys_subset fields n1 v, ?_, ?_, ?_⟩
  · have := foldl_insert_keys_subset entries []
    simpa [createStruct] using this
  · simp [incrementField, h1]
  · simp [incrementField, h2]
  · rw [List.map_map]
    refine List.map_congr_left ?_
    intro e _
    by_cases h3 : e.1 = n2
    · simp [h3]
    · simp [h3]

/-- C9 counterexample: a struct literal built from the single source field name
"a" accepts a bracket assignment to the foreign name "b"; afterwards its field
map holds "b", which was not among the names emitted by CREATE_STRUCT, so the
claim that no opcode adds a foreign field name to a struct fails on OpCode::SET. -/
theorem structSetAddsForeignField :
    (createStruct [("a", 1)]).map Prod.fst = ["a"] ∧
    (setField (createStruct [("a", 1)]) "b" 2).map Prod.fst = ["a", "b"] ∧
    "b" ∈ (setField (createStruct [("a", 1)]) "b" 2).map Prod.fst ∧
    "b" ∉ ["a"] := by
  refine ⟨rfl, rfl, by decide, by decide⟩

/-- Witness: the struct field invariant applied to the literal struct with field
"a", the missing name "b" and the present name "a". -/
theorem structFieldInvariant_witness :
    (createStruct [("a", 1)]).map Prod.fst ⊆ [("a", 1)].map Prod.fst ∧
    (setField [("a", 1)] "b" 5).map Prod.fst ⊆ [("a", 1)].map Prod.fst ++ ["b"] ∧
    incrementField [("a", 1)] "b" 5 = Except.error 4 ∧
    (incrementField [("a", 1)] "a" 5 =
        Except.ok ([("a", 1)].map (fun e => if e.1 = "a" then (e.1, 5) else e)) ∧
      ([("a", 1)].map (fun e => if e.1 = "a" then (e.1, 5) else e)).map Prod.fst =
        [("a", 1)].map Prod.fst) :=
  structFieldInvariant [("a", 1)] [("a", 1)] "b" "a" 5 1 rfl rfl
